import Mathlib

/-!
Verification of the universal_controller multi-signal classification and
verification engine against its specification.

The development shallowly embeds the algorithmic core of the repository:

* `ValueScanner` — snapshot diffing and heuristic pattern matchers
  (src/core/value-scanner.js);
* `Controller` — the four-signal confidence aggregator `detect`
  (src/detection/universal-controller.js);
* `DOMLocalityHash` — MinHash/LSH structural similarity index
  (src/core/dom-locality-hash.js);
* `PassiveDetector` — action/mutation correlation engine
  (src/core/passive-detector.js);
* `PatternVerifier` — behavioral verification state machine
  (src/llm/state-machine.js).

DOM-environment reads (computed styles, query results, phrasal scores,
condition checks, timing) are represented as data carried by the embedded
records or as oracle parameters, since they are inputs the algorithms
consume, not logic the algorithms contain.  Numeric JS values are
modelled as `ℚ` (confidences, sizes) or `Int` (timestamps); 32-bit hash
arithmetic is `Nat` with explicit reduction modulo `2 ^ 32`.
-/

namespace UCSpec

/-- JavaScript primitive value appearing in a `ValueRecord` field: a string,
a number, a boolean, or `undefined` (absent field). -/
inductive JSVal where
  | str (s : String)
  | num (q : ℚ)
  | bool (b : Bool)
  | undefined
deriving DecidableEq, Repr

namespace ValueScanner

/-- The `values` object of one snapshot entry: field name to value. -/
abbrev ElemValues := List (String × JSVal)

/-- Property access `vals[key]` on a JS object: the stored value, or
`undefined` when the key is absent. -/
def lookupVal (vals : ElemValues) (key : String) : JSVal :=
  match vals.lookup key with
  | some v => v
  | none => .undefined

/-- JS `a > b` for the numeric fields compared by `categorizeChange`
(`childCount`, `textLength` are always numbers in a snapshot). -/
def jsGT : JSVal → JSVal → Bool
  | .num a, .num b => a > b
  | _, _ => false

/-- Mirror of `ValueScanner.categorizeChange(key, before, after)`:
the fixed classification table for a changed field. -/
def categorizeChange (key : String) (before after : JSVal) : String :=
  if key = "childCount" ∧ jsGT after before then "children-added"
  else if key = "childCount" ∧ jsGT before after then "children-removed"
  else if key = "textLength" ∧ jsGT after before then "text-grew"
  else if key = "textLength" ∧ jsGT before after then "text-shrunk"
  else if key = "value" ∧ after = .str "" then "input-cleared"
  else if key = "value" ∧ before = .str "" then "input-filled"
  else if key = "scrollTop" then "scrolled"
  else if key = "display" ∧ after ≠ .str "none" ∧ before = .str "none" then "became-visible"
  else if key = "display" ∧ after = .str "none" then "became-hidden"
  else if key = "aria-expanded" then "aria-toggled"
  else if key = "checked" then "check-toggled"
  else "value-changed"

/-- One entry of the `changes` list of a changed element. -/
structure Change where
  key : String
  before : JSVal
  after : JSVal
  type : String
deriving DecidableEq, Repr

/-- The union of the key sets of two values objects, in JS `Set`
insertion order (first occurrences kept). -/
def allKeys (before after : ElemValues) : List String :=
  (before.map Prod.fst ++ after.map Prod.fst).eraseDups

/-- Mirror of `ValueScanner.diffValues(before, after)`: for every key of
either object, record a change when the values differ (JS `!==`). -/
def diffValues (before after : ElemValues) : List Change :=
  (allKeys before after).filterMap (fun key =>
    let bVal := lookupVal before key
    let aVal := lookupVal after key
    if bVal ≠ aVal then
      some { key := key, before := bVal, after := aVal,
             type := categorizeChange key bVal aVal }
    else none)

/-- One snapshot entry: the element's path, its captured values, and the
computed-style `position` of the live element it references (read by
`detectModal` at detection time). -/
structure ElemData where
  path : String
  values : ElemValues
  position : String
deriving DecidableEq, Repr

/-- A value snapshot: timestamp plus the path-keyed element map. -/
structure Snapshot where
  timestamp : Int
  elements : List (String × ElemData)
deriving DecidableEq, Repr

/-- An entry of `diff(...).changed`. -/
structure ChangedEntry where
  path : String
  el : ElemData
  changes : List Change
  before : ElemValues
  after : ElemValues
deriving DecidableEq, Repr

/-- An entry of `diff(...).added` or `diff(...).removed`. -/
structure AddedEntry where
  path : String
  values : ElemValues
deriving DecidableEq, Repr

/-- An entry of `diff(...).increased` or `diff(...).decreased`. -/
structure NumChange where
  path : String
  key : String
  before : JSVal
  after : JSVal
  type : String
deriving DecidableEq, Repr

/-- The `summary` counts of a diff. -/
structure DiffSummary where
  changed : Nat
  added : Nat
  removed : Nat
  increased : Nat
  decreased : Nat
deriving DecidableEq, Repr

/-- The result record of `ValueScanner.diff`. -/
structure Diff where
  changed : List ChangedEntry
  unchanged : List String
  added : List AddedEntry
  removed : List AddedEntry
  increased : List NumChange
  decreased : List NumChange
  summary : DiffSummary
deriving DecidableEq, Repr

/-- Numeric test `typeof v === 'number'` used by the increased/decreased
classification inside `diff`. -/
def isNum : JSVal → Bool
  | .num _ => true
  | _ => false

/-- JS `a > b` as a Prop on two numeric values. -/
def numGT (a b : JSVal) : Bool := jsGT a b

/-- The running accumulator of the `diff` walk over `after`'s elements:
changed, unchanged, added, increased, decreased. -/
abbrev DiffAcc := List ChangedEntry × List String × List AddedEntry ×
  List NumChange × List NumChange

/-- The loop body of `ValueScanner.diff` for one `after` element:
classify the path as added (absent from `before`), changed (non-empty
per-key differences, also feeding increased/decreased for numeric
changes) or unchanged. -/
def diffStep (before : Snapshot) (acc : DiffAcc)
    (entry : String × ElemData) : DiffAcc :=
  let path := entry.1
  let afterData := entry.2
  match before.elements.lookup path with
  | none =>
      (acc.1, acc.2.1, acc.2.2.1 ++ [⟨path, afterData.values⟩], acc.2.2.2)
  | some beforeData =>
      let changes := diffValues beforeData.values afterData.values
      if changes ≠ [] then
        let inc := changes.filter (fun c =>
          isNum c.before ∧ isNum c.after ∧ jsGT c.after c.before)
        let dec := changes.filter (fun c =>
          isNum c.before ∧ isNum c.after ∧ jsGT c.before c.after)
        (acc.1 ++ [⟨path, afterData, changes, beforeData.values, afterData.values⟩],
         acc.2.1, acc.2.2.1,
         acc.2.2.2.1 ++ inc.map (fun c => ⟨path, c.key, c.before, c.after, c.type⟩),
         acc.2.2.2.2 ++ dec.map (fun c => ⟨path, c.key, c.before, c.after, c.type⟩))
      else
        (acc.1, acc.2.1 ++ [path], acc.2.2)

/-- Mirror of `ValueScanner.diff(before, after)`: walk `after`'s
elements in order classifying each path as added/changed/unchanged,
collect numeric increases and decreases from the changes, then collect
the paths of `before` missing from `after` as removed. -/
def diff (before after : Snapshot) : Diff :=
  let acc := after.elements.foldl (diffStep before) ([], [], [], [], [])
  let removed := (before.elements.filter
    (fun p => (after.elements.lookup p.1).isNone)).map
    (fun p => (⟨p.1, p.2.values⟩ : AddedEntry))
  { changed := acc.1, unchanged := acc.2.1, added := acc.2.2.1,
    removed := removed, increased := acc.2.2.2.1, decreased := acc.2.2.2.2,
    summary := { changed := acc.1.length, added := acc.2.2.1.length,
                 removed := removed.length, increased := acc.2.2.2.1.length,
                 decreased := acc.2.2.2.2.length } }

/-- A fixed-confidence match returned by one of the four diff rule
matchers; the DOM component references of the source are abstracted to
the element paths determined by the diff (live-DOM lookups such as
`closest('form')` are dropped). -/
structure VSDetected where
  pattern : String
  confidence : ℚ
  state : Option String
  proof : String
  containerPath : Option String
deriving DecidableEq, Repr

/-- Delta of the `childCount` change of a changed entry, used to pick a
chat container; JS reads `changes.find(c => c.key === 'childCount')` and
defaults both sides to `0`. -/
def childCountDelta (c : ChangedEntry) : ℚ :=
  match c.changes.find? (fun ch => ch.key = "childCount") with
  | some ch =>
      (match ch.after with | .num q => q | _ => 0) -
      (match ch.before with | .num q => q | _ => 0)
  | none => 0

/-- Mirror of `ValueScanner.detectChat(diff)`: input-cleared plus
children-added in the same diff, confidence 0.95; the container is the
changed entry with the largest `childCount` increase. -/
def detectChat (d : Diff) : Option VSDetected :=
  let inputCleared := d.changed.filter (fun c =>
    c.changes.any (fun ch => ch.type = "input-cleared"))
  let childrenAdded := d.changed.filter (fun c =>
    c.changes.any (fun ch => ch.type = "children-added"))
  if inputCleared.length > 0 ∧ childrenAdded.length > 0 then
    let sorted := childrenAdded.insertionSort
      (fun a b => childCountDelta b ≤ childCountDelta a)
    some { pattern := "chat", confidence := 0.95, state := none,
           proof := "input-cleared + children-added",
           containerPath := sorted.head?.map (·.path) }
  else none

/-- Mirror of `ValueScanner.detectForm(diff)`: at least two inputs
cleared, confidence 0.85. -/
def detectForm (d : Diff) : Option VSDetected :=
  let inputsCleared := d.changed.filter (fun c =>
    c.changes.any (fun ch => ch.type = "input-cleared"))
  if inputsCleared.length ≥ 2 then
    some { pattern := "form", confidence := 0.85, state := none,
           proof := toString inputsCleared.length ++ " inputs cleared",
           containerPath := none }
  else none

/-- Mirror of `ValueScanner.detectDropdown(diff)`: any `aria-expanded`
key change, confidence 0.9. -/
def detectDropdown (d : Diff) : Option VSDetected :=
  let ariaToggled := d.changed.filter (fun c =>
    c.changes.any (fun ch => ch.key = "aria-expanded"))
  let becameVisible := d.changed.filter (fun c =>
    c.changes.any (fun ch => ch.type = "became-visible"))
  if ariaToggled.length > 0 then
    let expanded := (ariaToggled.head?.map (fun c =>
      lookupVal c.after "aria-expanded")).getD .undefined = .str "true"
    some { pattern := "dropdown", confidence := 0.9,
           state := some (if expanded then "opened" else "closed"),
           proof := "aria-expanded toggled",
           containerPath := becameVisible.head?.map (·.path) }
  else none

/-- Mirror of `ValueScanner.detectModal(diff)`: a changed entry whose
`display` went from `'none'` to a non-`'none'` value and whose live
element is `position: fixed`, confidence 0.85. -/
def detectModal (d : Diff) : Option VSDetected :=
  let becameVisible := d.changed.filter (fun c =>
    lookupVal c.before "display" = .str "none" ∧
    lookupVal c.after "display" ≠ .str "none")
  let fixedVisible := becameVisible.filter (fun c => c.el.position = "fixed")
  if fixedVisible.length > 0 then
    some { pattern := "modal", confidence := 0.85, state := some "opened",
           proof := "fixed element became visible",
           containerPath := fixedVisible.head?.map (·.path) }
  else none

/-- Mirror of `ValueScanner.detectPattern(diff)`: run the four rule
matchers and collect their matches in chat/form/dropdown/modal order. -/
def detectPattern (d : Diff) : List VSDetected :=
  ([detectChat d, detectForm d, detectDropdown d, detectModal d]).filterMap id

end ValueScanner

namespace Controller

/-- The requested guarantee level of a `detect()` call. -/
inductive Guarantee where
  | STRUCTURAL
  | SEMANTIC
  | BEHAVIORAL
  | VERIFIED
deriving DecidableEq, Repr

/-- The `thresholds` table of `UniversalController.detect`. -/
def thresholds : Guarantee → ℚ
  | .STRUCTURAL => 0.2
  | .SEMANTIC => 0.35
  | .BEHAVIORAL => 0.5
  | .VERIFIED => 0.7

/-- A candidate surviving `scanStructural`, together with the values the
DOM environment yields for it during `detect`: its structural rule score
(`candidate.score`), the `PhrasalScanner.score` output, the binary
`checkSemantic` result, and the `checkBehavioral` result. -/
structure Candidate where
  path : String
  score : ℚ
  phrasalScore : ℚ
  phrasalMatches : List String
  semantic : ℚ
  behavioral : ℚ
deriving DecidableEq, Repr

/-- The `evidence` record of a detection result. -/
structure Evidence where
  structural : ℚ
  phrasal : ℚ
  phrasalMatches : List String
  semantic : ℚ
  behavioral : ℚ
deriving DecidableEq, Repr

/-- A `DetectionResult` returned by `detect` (live element, components
and LSH signature abstracted away; `path` identifies the element). -/
structure DetectionResult where
  path : String
  patternName : String
  confidence : ℚ
  guarantee : Guarantee
  evidence : Evidence
deriving DecidableEq, Repr

/-- The confidence computed for one candidate inside `detect`:
`candidate.score * 0.25`, then `+= phrasal.score * 0.30`,
`+= semantic * 0.15`, `+= behavioral * 0.30`. -/
def detectConfidence (c : Candidate) : ℚ :=
  c.score * 0.25 + c.phrasalScore * 0.30 + c.semantic * 0.15 + c.behavioral * 0.30

/-- The result record pushed for an accepted candidate. -/
def mkResult (patternName : String) (guarantee : Guarantee) (c : Candidate) :
    DetectionResult :=
  { path := c.path, patternName := patternName,
    confidence := detectConfidence c, guarantee := guarantee,
    evidence := { structural := c.score, phrasal := c.phrasalScore,
                  phrasalMatches := c.phrasalMatches,
                  semantic := c.semantic, behavioral := c.behavioral } }

/-- The descending-confidence order of `results.sort((a, b) =>
b.confidence - a.confidence)`. -/
def byConfDesc (a b : DetectionResult) : Prop := b.confidence ≤ a.confidence

instance : DecidableRel byConfDesc := fun a b =>
  inferInstanceAs (Decidable (b.confidence ≤ a.confidence))

instance : IsTotal DetectionResult byConfDesc :=
  ⟨fun a b => le_total b.confidence a.confidence⟩

instance : IsTrans DetectionResult byConfDesc :=
  ⟨fun _ _ _ hab hbc => le_trans hbc hab⟩

/-- Mirror of the per-candidate body of `UniversalController.detect`:
compute the weighted confidence of every structural candidate, keep
those at or above the requested guarantee's threshold, and sort the
accepted results by confidence descending. -/
def detect (patternName : String) (candidates : List Candidate)
    (guarantee : Guarantee) : List DetectionResult :=
  let results := candidates.filterMap (fun c =>
    if detectConfidence c ≥ thresholds guarantee then
      some (mkResult patternName guarantee c)
    else none)
  results.insertionSort byConfDesc

end Controller

namespace DOMLocalityHash

/-- Default `shingleSize` option. -/
def shingleSize : Nat := 3

/-- Default `numHashes` option. -/
def numHashes : Nat := 64

/-- Default `numBands` option. -/
def numBands : Nat := 16

/-- `rowsPerBand = numHashes / numBands`. -/
def rowsPerBand : Nat := numHashes / numBands

/-- The per-slot permutation seed `i * 0x9e3779b9`, reduced to 32 bits
as JS `^` does on its operands. -/
def seeds (i : Nat) : Nat := (i * 0x9e3779b9) % 2 ^ 32

/-- Mirror of `hash32(str)`: 32-bit FNV-1a over the string's code
units (`h ^= charCodeAt; h = Math.imul(h, 0x01000193)`, final
`>>> 0`). -/
def hash32 (s : String) : Nat :=
  s.toList.foldl (fun h c => ((h ^^^ c.toNat) * 0x01000193) % 2 ^ 32) 0x811c9dc5

/-- One permuted hash `(h ^ seeds[i]) >>> 0`. -/
def permuted (h i : Nat) : Nat := (h ^^^ seeds i) % 2 ^ 32

/-- Mirror of `minhash(shingles)`: every slot `i` starts at the
`0xFFFFFFFF` fill value and keeps the minimum permuted hash over all
shingles (`if (permuted < mh[i]) mh[i] = permuted`). -/
def minhash (shingles : List String) : List Nat :=
  (List.range numHashes).map (fun i =>
    shingles.foldl (fun acc sh => min acc (permuted (hash32 sh) i)) 0xFFFFFFFF)

/-- All length-`shingleSize` contiguous windows over the feature list,
joined with `'|'` and collapsed to a set (JS `Set` keeps first
occurrences); the JS loop `for (i = 0; i <= features.length -
shingleSize; i++)` runs zero times when the list is shorter than the
shingle size. -/
def shinglesOf (features : List String) : List String :=
  if features.length < shingleSize then []
  else ((List.range (features.length - shingleSize + 1)).map (fun i =>
    String.intercalate "|" ((features.drop i).take shingleSize))).eraseDups

/-- Hex rendering `h.toString(16).padStart(8, '0')` of one slot. -/
def hexPad8 (n : Nat) : String :=
  let s := String.mk (Nat.toDigits 16 n)
  String.mk (List.replicate (8 - s.length) '0') ++ s

/-- The fingerprint: hex concatenation of the full MinHash vector. -/
def fingerprintOf (mh : List Nat) : String :=
  String.join (mh.map hexPad8)

/-- A `signature()` result record. -/
structure Signature where
  features : List String
  minhash : List Nat
  fingerprint : String
deriving DecidableEq, Repr

/-- Mirror of `signature(el)` after the DOM walk: `extractFeatures` is
the DOM-environment part and is represented by its output, the feature
token list. -/
def signature (features : List String) : Signature :=
  let shingles := shinglesOf features
  let mh := minhash shingles
  { features := features, minhash := mh, fingerprint := fingerprintOf mh }

/-- Mirror of `similarity(sig1, sig2)`: the fraction of slots (over the
shorter vector) where the two MinHash vectors agree exactly. -/
def similarity (sig1 sig2 : Signature) : ℚ :=
  let len := min sig1.minhash.length sig2.minhash.length
  let agree := ((sig1.minhash.zip sig2.minhash).filter
    (fun p => p.1 = p.2)).length
  (agree : ℚ) / (len : ℚ)

/-- Mirror of `bandHash(mh, bandIndex)`: FNV-1a over the band's
`rowsPerBand` slots of the MinHash vector. -/
def bandHash (mh : List Nat) (bandIndex : Nat) : Nat :=
  let start := bandIndex * rowsPerBand
  (List.range rowsPerBand).foldl
    (fun h k => ((h ^^^ mh.getD (start + k) 0) * 0x01000193) % 2 ^ 32) 0x811c9dc5

/-- A stored index entry `{ signature, key, metadata }` (metadata
dropped: it is opaque to the algorithms). -/
structure IndexEntry where
  signature : Signature
  key : String
deriving DecidableEq, Repr

/-- JS `Map.set`: overwrite in place when the key exists, append
otherwise. -/
def mapSet {α : Type} [BEq α] [DecidableEq α] {β : Type} (m : List (α × β))
    (k : α) (v : β) : List (α × β) :=
  if (m.lookup k).isSome then
    m.map (fun p => if p.1 = k then (k, v) else p)
  else m ++ [(k, v)]

/-- Membership of `fp` in the band bucket at `(band, bucketHash)`. -/
def bucketLookup (buckets : List ((Nat × Nat) × List String))
    (b bh : Nat) : List String :=
  (buckets.lookup (b, bh)).getD []

/-- Add a fingerprint to the `Set` stored at one band bucket, creating
the bucket when absent. -/
def bucketAdd (buckets : List ((Nat × Nat) × List String))
    (b bh : Nat) (fp : String) : List ((Nat × Nat) × List String) :=
  match buckets.lookup (b, bh) with
  | some s => mapSet buckets (b, bh) (if fp ∈ s then s else s ++ [fp])
  | none => buckets ++ [((b, bh), [fp])]

/-- The mutable state of a `DOMLocalityHash` instance: the
fingerprint-keyed entry map and the per-band bucket map. -/
structure LSHIndex where
  index : List (String × IndexEntry)
  buckets : List ((Nat × Nat) × List String)
deriving DecidableEq, Repr

/-- A fresh instance: empty index, empty buckets. -/
def emptyIndex : LSHIndex := ⟨[], []⟩

/-- Mirror of `addToIndex(key, sig)`: store the entry under the
signature's fingerprint, then add the fingerprint to each band's bucket
for `bandHash(sig.minhash, b)`. -/
def addToIndex (st : LSHIndex) (key : String) (sig : Signature) : LSHIndex :=
  { index := mapSet st.index sig.fingerprint ⟨sig, key⟩,
    buckets := (List.range numBands).foldl
      (fun bk b => bucketAdd bk b (bandHash sig.minhash b) sig.fingerprint)
      st.buckets }

/-- A `querySimilar` result entry. -/
structure QueryResult where
  key : String
  fingerprint : String
  similarity : ℚ
deriving DecidableEq, Repr

/-- The descending-similarity order of the final
`results.sort((a, b) => b.similarity - a.similarity)`. -/
def bySimDesc (a b : QueryResult) : Prop := b.similarity ≤ a.similarity

instance : DecidableRel bySimDesc := fun a b =>
  inferInstanceAs (Decidable (b.similarity ≤ a.similarity))

instance : IsTotal QueryResult bySimDesc :=
  ⟨fun a b => le_total b.similarity a.similarity⟩

instance : IsTrans QueryResult bySimDesc :=
  ⟨fun _ _ _ hab hbc => le_trans hbc hab⟩

/-- The union (JS `Set` accumulation) of all band buckets matching the
query signature's band hashes. -/
def candidateFingerprints (st : LSHIndex) (sig : Signature) : List String :=
  (List.range numBands).foldl (fun acc b =>
    let s := bucketLookup st.buckets b (bandHash sig.minhash b)
    acc ++ s.filter (fun fp => fp ∉ acc)) []

/-- Mirror of `querySimilar(sig)`: gather every fingerprint sharing a
band bucket with the query, look each up in the index, rank by exact
similarity descending. -/
def querySimilar (st : LSHIndex) (sig : Signature) : List QueryResult :=
  ((candidateFingerprints st sig).filterMap (fun fp =>
    (st.index.lookup fp).map (fun e =>
      ({ key := e.key, fingerprint := fp,
         similarity := similarity sig e.signature } : QueryResult)))).insertionSort
    bySimDesc

end DOMLocalityHash

namespace PassiveDetector

/-- The container element of an inferred pattern (may be `null` in the
source); only its `tagName` and `id` are consumed, by the dedup key. -/
structure Container where
  tagName : String
  id : String
deriving DecidableEq, Repr

/-- An inferred pattern record produced by `_inferPattern`. -/
structure Inferred where
  pattern : String
  confidence : ℚ
  evidence : String
  container : Option Container
deriving DecidableEq, Repr

/-- The deduplication key
`pattern + ':' + (container?.tagName || '') + ':' + (container?.id || '')`. -/
def dedupKey (inf : Inferred) : String :=
  inf.pattern ++ ":" ++ ((inf.container.map (·.tagName)).getD "") ++ ":" ++
    ((inf.container.map (·.id)).getD "")

/-- Mirror of `_reportPattern(inferred)` on the dedup map: keep the
stored inference when it exists with confidence `>=` the new one,
otherwise store the new one under its key (JS `Map.set`). -/
def reportPattern (m : List (String × Inferred)) (inf : Inferred) :
    List (String × Inferred) :=
  let key := dedupKey inf
  match m.lookup key with
  | some existing =>
      if existing.confidence ≥ inf.confidence then m
      else DOMLocalityHash.mapSet m key inf
  | none => DOMLocalityHash.mapSet m key inf

/-- A queued user action: its timestamp and the `_correlated` mark; the
event target and metadata consumed only by `_inferPattern` are folded
into the rule-set parameter of `correlate`, and `id` stands for the
object identity of the queue entry. -/
structure Action where
  id : Nat
  timestamp : Int
  correlated : Bool
deriving DecidableEq, Repr

/-- A queued mutation: its timestamp; the mutation payload consumed only
by `_inferPattern` is folded into the rule-set parameter of
`correlate`, and `id` stands for the object identity of the entry. -/
structure Mutation where
  id : Nat
  timestamp : Int
deriving DecidableEq, Repr

/-- The mutable state of a `PassiveDetector` instance (queues, dedup
map, and the two numeric options; defaults 1000 ms and 0.6). -/
structure State where
  correlationWindow : Int
  minConfidence : ℚ
  actionQueue : List Action
  mutationQueue : List Mutation
  inferred : List (String × Inferred)

/-- The per-action loop body of `_correlate`, threading the dedup map
and collecting every `(action, inference)` pair for which
`_reportPattern` is invoked.  `inferPattern` is the fixed rule set
`_inferPattern` of the source, taken as a parameter: the claims proved
about `correlate` hold for every rule set, in particular the source's. -/
def correlateLoop (w : Int) (minConf : ℚ) (now : Int)
    (inferPattern : Action → List Mutation → Option Inferred)
    (muts : List Mutation) :
    List Action → List (String × Inferred) →
    List Action × List (String × Inferred) × List (Action × Inferred)
  | [], m => ([], m, [])
  | a :: rest, m =>
    if now - a.timestamp > w ∨ a.correlated then
      let r := correlateLoop w minConf now inferPattern muts rest m
      (a :: r.1, r.2.1, r.2.2)
    else
      let ms := muts.filter (fun mu =>
        mu.timestamp ≥ a.timestamp ∧ mu.timestamp ≤ a.timestamp + w)
      if ms.isEmpty then
        let r := correlateLoop w minConf now inferPattern muts rest m
        (a :: r.1, r.2.1, r.2.2)
      else
        match inferPattern a ms with
        | some inf =>
          if inf.confidence ≥ minConf then
            let r := correlateLoop w minConf now inferPattern muts rest
              (reportPattern m inf)
            ({ a with correlated := true } :: r.1, r.2.1, (a, inf) :: r.2.2)
          else
            let r := correlateLoop w minConf now inferPattern muts rest m
            (a :: r.1, r.2.1, r.2.2)
        | none =>
          let r := correlateLoop w minConf now inferPattern muts rest m
          (a :: r.1, r.2.1, r.2.2)

/-- Mirror of one `_correlate` tick at time `now`: drop queue entries
older than `2 * correlationWindow`, then for each un-correlated action
younger than the window gather the mutations inside
`[action.timestamp, action.timestamp + window]`, run the inference
rules, and report inferences meeting `minConfidence`.  Returns the new
state and the list of `(action, inference)` reports of this tick. -/
def correlate (st : State) (now : Int)
    (inferPattern : Action → List Mutation → Option Inferred) :
    State × List (Action × Inferred) :=
  let w := st.correlationWindow
  let actions := st.actionQueue.filter (fun a => now - a.timestamp < w * 2)
  let muts := st.mutationQueue.filter (fun m => now - m.timestamp < w * 2)
  let r := correlateLoop w st.minConfidence now inferPattern muts actions st.inferred
  ({ st with actionQueue := r.1, mutationQueue := muts, inferred := r.2.1 },
   r.2.2)

end PassiveDetector

namespace PatternVerifier

/-- A precondition entry of a `SPECS` action. -/
structure CondSpec where
  check : String
  desc : String
deriving DecidableEq, Repr

/-- A postcondition entry of a `SPECS` action (timeout in ms). -/
structure PostSpec where
  check : String
  timeout : Nat
  desc : String
deriving DecidableEq, Repr

/-- A named action of a pattern spec. -/
structure ActionSpec where
  preconditions : List CondSpec
  postconditions : List PostSpec
deriving DecidableEq, Repr

/-- A pattern spec: display name plus its actions. -/
structure PatternSpec where
  name : String
  actions : List (String × ActionSpec)
deriving DecidableEq, Repr

/-- The `SPECS` table of src/llm/state-machine.js. -/
def SPECS : List (String × PatternSpec) :=
  [("chat",
    { name := "ChatBox",
      actions := [("send",
        { preconditions :=
            [⟨"input-has-value", "Input must contain text"⟩],
          postconditions :=
            [⟨"input-cleared", 500, "Input should be cleared"⟩,
             ⟨"children-added", 3000, "New message should appear in container"⟩,
             ⟨"container-scrolled", 3500, "Container should scroll to show new message"⟩] })] }),
   ("form",
    { name := "Form",
      actions := [("submit",
        { preconditions :=
            [⟨"has-filled-fields", "At least one field should have a value"⟩],
          postconditions :=
            [⟨"inputs-cleared-or-hidden", 2000, "Form should clear or navigate away"⟩] })] }),
   ("dropdown",
    { name := "Dropdown",
      actions := [("toggle",
        { preconditions := [],
          postconditions :=
            [⟨"aria-expanded-toggled", 500, "aria-expanded should toggle"⟩,
             ⟨"menu-visibility-changed", 500, "Menu should appear or disappear"⟩] }),
        ("select",
        { preconditions := [⟨"menu-visible", "Menu should be open"⟩],
          postconditions :=
            [⟨"menu-closed", 500, "Menu should close after selection"⟩,
             ⟨"trigger-text-changed", 500, "Trigger text should update"⟩] })] }),
   ("modal",
    { name := "Modal",
      actions := [("close",
        { preconditions := [⟨"modal-visible", "Modal should be visible"⟩],
          postconditions :=
            [⟨"modal-hidden", 1000, "Modal should disappear"⟩] })] })]

/-- One entry of a `verify` result list (`phase` is absent on the two
early-exit entries). -/
structure CheckResult where
  check : String
  passed : Bool
  desc : String
  phase : Option String
deriving DecidableEq, Repr

/-- The record returned by `verify`. -/
structure VerifyReturn where
  passed : Bool
  results : List CheckResult
  guarantee : String
deriving DecidableEq, Repr

/-- A recorded verification trace. -/
structure Trace where
  action : String
  timestamp : Int
  preconditions : List CheckResult
  postconditions : List CheckResult
  passed : Bool
deriving DecidableEq, Repr

/-- The mutable state of a `PatternVerifier` instance. -/
structure Verifier where
  patternName : String
  traces : List Trace
  currentGuarantee : String
deriving DecidableEq, Repr

/-- Mirror of the constructor: a fresh verifier starts at
`'STRUCTURAL'` with no traces. -/
def init (patternName : String) : Verifier :=
  { patternName := patternName, traces := [], currentGuarantee := "STRUCTURAL" }

/-- Outcome of invoking the caller-supplied `actionFn`: it returns (and
any awaitable it returns resolves), or it throws / rejects with a
message. -/
inductive ActionOutcome where
  | ok
  | throws (msg : String)
deriving DecidableEq, Repr

/-- Mirror of `PatternVerifier.verify(actionName, actionFn)`.  The
DOM-and-time-dependent condition evaluation is abstracted as oracles:
`preEnv check` is the synchronous `_checkCondition` result and
`postEnv check timeout` is whether `_waitForCondition` resolves `true`
within the check's timeout.  Unknown pattern or action names yield the
structured early-exit failures; a throwing action produces the
`execution` failure entry and leaves the guarantee untouched; otherwise
all pre- and post-condition entries decide `passed`, and full success
escalates the guarantee to `'VERIFIED'`. -/
def verify (v : Verifier) (actionName : String)
    (preEnv : String → Bool) (outcome : ActionOutcome)
    (postEnv : String → Nat → Bool) (now : Int) :
    VerifyReturn × Verifier :=
  match SPECS.lookup v.patternName with
  | none =>
      ({ passed := false,
         results := [⟨"spec", false, "No spec for pattern", none⟩],
         guarantee := v.currentGuarantee }, v)
  | some spec =>
    match spec.actions.lookup actionName with
    | none =>
        ({ passed := false,
           results := [⟨"action", false, "No spec for action: " ++ actionName, none⟩],
           guarantee := v.currentGuarantee }, v)
    | some action =>
      let preResults : List CheckResult := action.preconditions.map (fun pre =>
        ⟨pre.check, preEnv pre.check, pre.desc, some "pre"⟩)
      match outcome with
      | .throws msg =>
        let results := preResults ++
          [⟨"execution", false, "Action threw: " ++ msg, some "exec"⟩]
        let trace : Trace :=
          { action := actionName, timestamp := now,
            preconditions := preResults, postconditions := [], passed := false }
        ({ passed := false, results := results, guarantee := v.currentGuarantee },
         { v with traces := v.traces ++ [trace] })
      | .ok =>
        let postResults : List CheckResult := action.postconditions.map (fun post =>
          ⟨post.check, postEnv post.check post.timeout, post.desc, some "post"⟩)
        let results := preResults ++ postResults
        let allPassed := results.all (·.passed)
        let trace : Trace :=
          { action := actionName, timestamp := now,
            preconditions := preResults, postconditions := postResults,
            passed := allPassed }
        let guarantee' := if allPassed then "VERIFIED" else v.currentGuarantee
        ({ passed := allPassed, results := results, guarantee := guarantee' },
         { v with traces := v.traces ++ [trace], currentGuarantee := guarantee' })

/-- One queued `verify` invocation: action name, precondition oracle,
action outcome, postcondition oracle, and the call's clock reading. -/
structure VerifyCall where
  actionName : String
  preEnv : String → Bool
  outcome : ActionOutcome
  postEnv : String → Nat → Bool
  now : Int

/-- Run a sequence of `verify` calls, collecting the returned records. -/
def runVerifies (v : Verifier) : List VerifyCall → Verifier × List VerifyReturn
  | [] => (v, [])
  | c :: rest =>
    let r := verify v c.actionName c.preEnv c.outcome c.postEnv c.now
    let rr := runVerifies r.2 rest
    (rr.1, r.1 :: rr.2)

/-- The position of a guarantee level in the ordered enum
`STRUCTURAL < SEMANTIC < BEHAVIORAL < VERIFIED`. -/
def guaranteeRank (s : String) : Nat :=
  if s = "SEMANTIC" then 1
  else if s = "BEHAVIORAL" then 2
  else if s = "VERIFIED" then 3
  else 0

end PatternVerifier

section Claims

open Controller ValueScanner DOMLocalityHash PassiveDetector PatternVerifier

/-- Helper: membership in `detect` results is acceptance of a candidate
at the guarantee threshold. -/
theorem mem_detect_iff (patternName : String) (candidates : List Candidate)
    (guarantee : Guarantee) (r : DetectionResult) :
    r ∈ Controller.detect patternName candidates guarantee ↔
      ∃ c ∈ candidates,
        detectConfidence c ≥ thresholds guarantee ∧
        r = mkResult patternName guarantee c := by
  unfold Controller.detect
  rw [List.mem_insertionSort, List.mem_filterMap]
  constructor
  · rintro ⟨c, hc, hf⟩
    by_cases h : detectConfidence c ≥ thresholds guarantee
    · rw [if_pos h] at hf
      exact ⟨c, hc, h, (Option.some_inj.mp hf).symm⟩
    · rw [if_neg h] at hf
      exact absurd hf (Option.noConfusion)
  · rintro ⟨c, hc, h, rfl⟩
    exact ⟨c, hc, by rw [if_pos h]⟩

/-- C1: for every candidate surviving structural scanning, `detect`
computes its confidence as exactly `structural*0.25 + phrasal*0.30 +
semantic*0.15 + behavioral*0.30` and accepts the candidate iff that
confidence is at least the requested guarantee's threshold
(STRUCTURAL 0.2, SEMANTIC 0.35, BEHAVIORAL 0.5, VERIFIED 0.7); a
candidate with structural 1.0, phrasal 0, semantic 0, behavioral 1.0
gets confidence 0.55, which passes BEHAVIORAL but not VERIFIED. -/
theorem detect_confidence_formula_and_threshold :
    (∀ (patternName : String) (candidates : List Candidate)
       (guarantee : Guarantee) (r : DetectionResult),
       r ∈ Controller.detect patternName candidates guarantee ↔
         ∃ c ∈ candidates,
           detectConfidence c ≥ thresholds guarantee ∧
           r = mkResult patternName guarantee c) ∧
    (∀ (patternName : String) (guarantee : Guarantee) (c : Candidate),
       (mkResult patternName guarantee c).confidence = detectConfidence c) ∧
    (∀ c : Candidate, detectConfidence c =
       c.score * 0.25 + c.phrasalScore * 0.30 + c.semantic * 0.15 +
         c.behavioral * 0.30) ∧
    detectConfidence ⟨"", 1, 0, [], 0, 1⟩ = 0.55 ∧
    thresholds .STRUCTURAL = 0.2 ∧ thresholds .SEMANTIC = 0.35 ∧
    thresholds .BEHAVIORAL = 0.5 ∧ thresholds .VERIFIED = 0.7 ∧
    detectConfidence ⟨"", 1, 0, [], 0, 1⟩ ≥ thresholds .BEHAVIORAL ∧
    ¬ detectConfidence ⟨"", 1, 0, [], 0, 1⟩ ≥ thresholds .VERIFIED := by
  refine ⟨mem_detect_iff, fun _ _ _ => rfl, fun _ => rfl, ?_, rfl, rfl, rfl, rfl, ?_, ?_⟩
  · unfold detectConfidence
    norm_num
  · unfold detectConfidence thresholds
    norm_num
  · unfold detectConfidence thresholds
    norm_num

/-- C5: within one `detect` call, the returned results are sorted by
confidence in non-increasing order: for every pair of indices `i < j`,
`results[i].confidence ≥ results[j].confidence`. -/
theorem detect_results_sorted (patternName : String)
    (candidates : List Candidate) (guarantee : Guarantee)
    (i j : Fin (Controller.detect patternName candidates guarantee).length)
    (hij : i < j) :
    ((Controller.detect patternName candidates guarantee).get j).confidence ≤
      ((Controller.detect patternName candidates guarantee).get i).confidence := by
  have hs : List.Sorted byConfDesc
      (Controller.detect patternName candidates guarantee) :=
    List.sorted_insertionSort byConfDesc _
  exact hs.rel_get_of_lt hij

/-- Witness for C5: a concrete `detect` call returning two results, at
indices 0 < 1, with the sortedness conclusion instantiated there. -/
theorem detect_results_sorted_witness :
    ((Controller.detect "chat"
        [⟨"a", 1, 0, [], 0, 0⟩, ⟨"b", 1, 1, [], 1, 1⟩] .STRUCTURAL).get
        ⟨1, by norm_num [Controller.detect, detectConfidence, thresholds, mkResult,
          List.filterMap_cons, List.insertionSort, List.orderedInsert, byConfDesc]⟩).confidence ≤
      ((Controller.detect "chat"
        [⟨"a", 1, 0, [], 0, 0⟩, ⟨"b", 1, 1, [], 1, 1⟩] .STRUCTURAL).get
        ⟨0, by norm_num [Controller.detect, detectConfidence, thresholds, mkResult,
          List.filterMap_cons, List.insertionSort, List.orderedInsert, byConfDesc]⟩).confidence :=
  detect_results_sorted "chat" _ .STRUCTURAL _ _ (by norm_num)

/-- Helper: association-list lookup of a member key under distinct
keys returns that member's value. -/
theorem lookup_eq_some_of_mem_nodup {α β : Type} [DecidableEq α]
    {l : List (α × β)} {a : α} {b : β}
    (hmem : (a, b) ∈ l) (hnd : (l.map Prod.fst).Nodup) :
    l.lookup a = some b := by
  induction l with
  | nil => cases hmem
  | cons x xs ih =>
    rcases List.mem_cons.mp hmem with h | h
    · subst h
      exact List.lookup_cons_self
    · rw [List.map_cons, List.nodup_cons] at hnd
      obtain ⟨hx, hxs⟩ := hnd
      have hne : (a == x.1) = false := by
        simp only [beq_eq_false_iff_ne, ne_eq]
        intro he
        exact hx (he ▸ List.mem_map_of_mem Prod.fst h)
      obtain ⟨k, v⟩ := x
      rw [List.lookup_cons]
      simpa [hne] using ih h hxs

/-- Helper: diffValues of a values object against itself is empty. -/
theorem diffValues_self (v : ElemValues) : diffValues v v = [] := by
  simp [diffValues]

/-- Helper: the `diff` walk leaves changed/added (and
increased/decreased) untouched when every walked element looks up to an
identical values record in `before`. -/
theorem foldl_diffStep_of_identical (before : Snapshot) :
    ∀ (l : List (String × ElemData)) (acc : DiffAcc),
      (∀ e ∈ l, ∃ bd : ElemData,
        before.elements.lookup e.1 = some bd ∧
        diffValues bd.values e.2.values = []) →
      (l.foldl (diffStep before) acc).1 = acc.1 ∧
      (l.foldl (diffStep before) acc).2.2.1 = acc.2.2.1 := by
  intro l
  induction l with
  | nil => intro acc _; exact ⟨rfl, rfl⟩
  | cons e rest ih =>
    intro acc h
    obtain ⟨bd, hbd, hdv⟩ := h e (List.mem_cons_self e rest)
    have hstep : diffStep before acc e = (acc.1, acc.2.1 ++ [e.1], acc.2.2) := by
      obtain ⟨p, d⟩ := e
      simp only [diffStep, hbd, hdv]
      simp
    rw [List.foldl_cons, hstep]
    exact ih _ (fun x hx => h x (List.mem_cons_of_mem e hx))

/-- C4: diffing two snapshots whose element maps hold the same paths
with identical value records — in particular diffing a snapshot against
itself — yields empty `changed`, `added` and `removed` lists.
(`Nodup` on the paths is the JS `Map` key-uniqueness invariant of
`snapshot()`.) -/
theorem diff_identical_snapshots :
    (∀ s : Snapshot, (s.elements.map Prod.fst).Nodup →
       (ValueScanner.diff s s).changed = [] ∧
       (ValueScanner.diff s s).added = [] ∧
       (ValueScanner.diff s s).removed = []) ∧
    (∀ before after : Snapshot, (after.elements.map Prod.fst).Nodup →
       (∀ p, before.elements.lookup p = after.elements.lookup p) →
       (ValueScanner.diff before after).changed = [] ∧
       (ValueScanner.diff before after).added = [] ∧
       (ValueScanner.diff before after).removed = []) := by
  have general : ∀ before after : Snapshot,
      (after.elements.map Prod.fst).Nodup →
      (∀ p, before.elements.lookup p = after.elements.lookup p) →
      (ValueScanner.diff before after).changed = [] ∧
      (ValueScanner.diff before after).added = [] ∧
      (ValueScanner.diff before after).removed = [] := by
    intro before after hnd hsame
    have hfold := foldl_diffStep_of_identical before after.elements
      ([], [], [], [], [])
      (by
        intro e he
        refine ⟨e.2, ?_, diffValues_self _⟩
        rw [hsame e.1]
        exact lookup_eq_some_of_mem_nodup (by simpa using he) hnd)
    have hrm : before.elements.filter
        (fun p => (after.elements.lookup p.1).isNone) = [] := by
      rw [List.filter_eq_nil_iff]
      intro p hp
      rw [← hsame p.1]
      have hsome : (before.elements.lookup p.1).isSome := by
        rw [List.lookup_isSome_iff]
        exact ⟨p, hp, by simp⟩
      simp [Option.isNone_eq_false_iff, Option.isSome_iff_ne_none] at hsome ⊢
      exact hsome
    refine ⟨?_, ?_, ?_⟩
    · simpa only [ValueScanner.diff] using hfold.1
    · simpa only [ValueScanner.diff] using hfold.2
    · simp only [ValueScanner.diff, hrm, List.map_nil]
  exact ⟨fun s hnd => general s s hnd (fun _ => rfl), general⟩

/-- Witness for C4: a concrete two-element snapshot diffed against
itself yields empty changed/added/removed. -/
theorem diff_identical_snapshots_witness :
    (ValueScanner.diff
      ⟨0, [("DIV[0]", ⟨"DIV[0]", [("childCount", .num 2)], "static"⟩),
           ("DIV[0]>SPAN[0]", ⟨"DIV[0]>SPAN[0]",
             [("text", .str "Hi"), ("textLength", .num 2)], "static"⟩)]⟩
      ⟨0, [("DIV[0]", ⟨"DIV[0]", [("childCount", .num 2)], "static"⟩),
           ("DIV[0]>SPAN[0]", ⟨"DIV[0]>SPAN[0]",
             [("text", .str "Hi"), ("textLength", .num 2)], "static"⟩)]⟩).changed = [] ∧
    (ValueScanner.diff
      ⟨0, [("DIV[0]", ⟨"DIV[0]", [("childCount", .num 2)], "static"⟩),
           ("DIV[0]>SPAN[0]", ⟨"DIV[0]>SPAN[0]",
             [("text", .str "Hi"), ("textLength", .num 2)], "static"⟩)]⟩
      ⟨0, [("DIV[0]", ⟨"DIV[0]", [("childCount", .num 2)], "static"⟩),
           ("DIV[0]>SPAN[0]", ⟨"DIV[0]>SPAN[0]",
             [("text", .str "Hi"), ("textLength", .num 2)], "static"⟩)]⟩).added = [] ∧
    (ValueScanner.diff
      ⟨0, [("DIV[0]", ⟨"DIV[0]", [("childCount", .num 2)], "static"⟩),
           ("DIV[0]>SPAN[0]", ⟨"DIV[0]>SPAN[0]",
             [("text", .str "Hi"), ("textLength", .num 2)], "static"⟩)]⟩
      ⟨0, [("DIV[0]", ⟨"DIV[0]", [("childCount", .num 2)], "static"⟩),
           ("DIV[0]>SPAN[0]", ⟨"DIV[0]>SPAN[0]",
             [("text", .str "Hi"), ("textLength", .num 2)], "static"⟩)]⟩).removed = [] :=
  diff_identical_snapshots.1 _ (by decide)

/-- A changed diff entry whose `display` went `'none' → 'block'`, on an
element whose computed position is `pos`. -/
def modalChangedEntry (pos : String) : ChangedEntry :=
  { path := "DIV[0]",
    el := { path := "DIV[0]", values := [("display", .str "block")],
            position := pos },
    changes := diffValues [("display", .str "none")] [("display", .str "block")],
    before := [("display", .str "none")],
    after := [("display", .str "block")] }

/-- A diff containing exactly one hidden-to-visible changed entry of the
given position. -/
def modalDiffWith (pos : String) : Diff :=
  { changed := [modalChangedEntry pos], unchanged := [], added := [],
    removed := [], increased := [], decreased := [],
    summary := ⟨1, 0, 0, 0, 0⟩ }

/-- Counterexample to C3 as stated: an absolute-positioned node
transitioning hidden to visible satisfies the claim's trigger, yet
`detectPattern` reports no modal match — the source tests
`position === 'fixed'` only. -/
theorem detectPattern_modal_ignores_absolute :
    ((modalChangedEntry "absolute").el.position = "fixed" ∨
      (modalChangedEntry "absolute").el.position = "absolute") ∧
    lookupVal (modalChangedEntry "absolute").before "display" = .str "none" ∧
    lookupVal (modalChangedEntry "absolute").after "display" ≠ .str "none" ∧
    (modalChangedEntry "absolute") ∈ (modalDiffWith "absolute").changed ∧
    ¬ ∃ r ∈ detectPattern (modalDiffWith "absolute"), r.pattern = "modal" := by
  decide

/-- Helper: a chat match always carries pattern name `"chat"`. -/
theorem detectChat_pattern {d : Diff} {r : VSDetected}
    (h : detectChat d = some r) : r.pattern = "chat" := by
  simp only [detectChat] at h
  split at h
  · rw [Option.some_inj] at h
    subst h; rfl
  · exact Option.noConfusion h

/-- Helper: a form match always carries pattern name `"form"`. -/
theorem detectForm_pattern {d : Diff} {r : VSDetected}
    (h : detectForm d = some r) : r.pattern = "form" := by
  simp only [detectForm] at h
  split at h
  · rw [Option.some_inj] at h
    subst h; rfl
  · exact Option.noConfusion h

/-- Helper: a dropdown match always carries pattern name `"dropdown"`. -/
theorem detectDropdown_pattern {d : Diff} {r : VSDetected}
    (h : detectDropdown d = some r) : r.pattern = "dropdown" := by
  simp only [detectDropdown] at h
  split at h
  · rw [Option.some_inj] at h
    subst h; rfl
  · exact Option.noConfusion h

/-- Helper: a modal match carries pattern `"modal"` and confidence
`0.85`. -/
theorem detectModal_spec {d : Diff} {r : VSDetected}
    (h : detectModal d = some r) :
    r.pattern = "modal" ∧ r.confidence = 0.85 := by
  simp only [detectModal] at h
  split at h
  · rw [Option.some_inj] at h
    subst h; exact ⟨rfl, rfl⟩
  · exact Option.noConfusion h

/-- Helper: `detectModal` produces a match exactly when some changed
entry went `display: none` to non-`none` on a fixed-positioned
element. -/
theorem detectModal_isSome_iff (d : Diff) :
    (∃ r, detectModal d = some r) ↔
      ∃ c ∈ d.changed,
        lookupVal c.before "display" = .str "none" ∧
        lookupVal c.after "display" ≠ .str "none" ∧
        c.el.position = "fixed" := by
  simp only [detectModal]
  split
  · rename_i hlen
    constructor
    · intro _
      obtain ⟨c, hc⟩ := List.length_pos_iff_exists_mem.mp hlen
      rw [List.mem_filter] at hc
      obtain ⟨hc1, hc2⟩ := hc
      rw [List.mem_filter] at hc1
      obtain ⟨hcc, hc3⟩ := hc1
      simp only [decide_eq_true_eq] at hc2 hc3
      exact ⟨c, hcc, hc3.1, hc3.2, hc2⟩
    · intro _
      exact ⟨_, rfl⟩
  · rename_i hlen
    constructor
    · rintro ⟨r, hr⟩
      exact Option.noConfusion hr
    · rintro ⟨c, hcc, h1, h2, h3⟩
      exfalso
      apply hlen
      apply List.length_pos_iff_exists_mem.mpr
      refine ⟨c, ?_⟩
      rw [List.mem_filter]
      refine ⟨?_, by simp [h3]⟩
      rw [List.mem_filter]
      exact ⟨hcc, by simp [h1, h2]⟩

/-- Helper: membership in `detectPattern` output decomposes into the
four matchers. -/
theorem mem_detectPattern_iff (d : Diff) (r : VSDetected) :
    r ∈ detectPattern d ↔
      detectChat d = some r ∨ detectForm d = some r ∨
      detectDropdown d = some r ∨ detectModal d = some r := by
  simp only [detectPattern, List.mem_filterMap, id_eq, List.mem_cons,
    List.not_mem_nil, or_false]
  constructor
  · rintro ⟨a, h1, rfl⟩
    exact h1.imp Eq.symm (fun h => h.imp Eq.symm (fun h => h.imp Eq.symm Eq.symm))
  · intro h
    refine ⟨some r, ?_, rfl⟩
    exact h.imp Eq.symm (fun h => h.imp Eq.symm (fun h => h.imp Eq.symm Eq.symm))

/-- C3 (amended): `detectPattern(diff)` reports a modal match — always
with confidence 0.85 — iff the diff contains a changed entry whose node
is fixed-positioned (the source checks `position === 'fixed'` only, so
absolute-positioned nodes do not trigger it) and whose display
transitioned from `'none'` to a non-`'none'` value. -/
theorem detectPattern_modal_fixed_iff (d : Diff) :
    ((∃ r ∈ detectPattern d, r.pattern = "modal") ↔
      ∃ c ∈ d.changed,
        lookupVal c.before "display" = .str "none" ∧
        lookupVal c.after "display" ≠ .str "none" ∧
        c.el.position = "fixed") ∧
    (∀ r ∈ detectPattern d, r.pattern = "modal" → r.confidence = 0.85) := by
  constructor
  · constructor
    · rintro ⟨r, hmem, hpat⟩
      rcases (mem_detectPattern_iff d r).mp hmem with h | h | h | h
      · have hc := detectChat_pattern h
        rw [hpat] at hc
        exact absurd hc (by decide)
      · have hc := detectForm_pattern h
        rw [hpat] at hc
        exact absurd hc (by decide)
      · have hc := detectDropdown_pattern h
        rw [hpat] at hc
        exact absurd hc (by decide)
      · exact (detectModal_isSome_iff d).mp ⟨r, h⟩
    · intro hcond
      obtain ⟨r, hr⟩ := (detectModal_isSome_iff d).mpr hcond
      exact ⟨r, (mem_detectPattern_iff d r).mpr (Or.inr (Or.inr (Or.inr hr))),
        (detectModal_spec hr).1⟩
  · intro r hmem hpat
    rcases (mem_detectPattern_iff d r).mp hmem with h | h | h | h
    · have hc := detectChat_pattern h
      rw [hpat] at hc
      exact absurd hc (by decide)
    · have hc := detectForm_pattern h
      rw [hpat] at hc
      exact absurd hc (by decide)
    · have hc := detectDropdown_pattern h
      rw [hpat] at hc
      exact absurd hc (by decide)
    · exact (detectModal_spec h).2

/-- The modal match produced for the concrete fixed-position
hidden-to-visible diff. -/
def fixedModalMatch : VSDetected :=
  { pattern := "modal", confidence := 0.85, state := some "opened",
    proof := "fixed element became visible",
    containerPath := some "DIV[0]" }

/-- Witness for the amended C3: on a concrete diff with one
fixed-positioned hidden-to-visible entry, a modal match is reported and
its confidence is 0.85. -/
theorem detectPattern_modal_fixed_iff_witness :
    (∃ r ∈ detectPattern (modalDiffWith "fixed"), r.pattern = "modal") ∧
    fixedModalMatch.confidence = 0.85 :=
  ⟨(detectPattern_modal_fixed_iff (modalDiffWith "fixed")).1.mpr (by decide),
   (detectPattern_modal_fixed_iff (modalDiffWith "fixed")).2 fixedModalMatch
     (List.Mem.head []) rfl⟩

/-- Helper: lookup over a map-update of the key being replaced. -/
theorem lookup_map_replace {α β : Type} [BEq α] [LawfulBEq α] [DecidableEq α]
    (m : List (α × β)) (k : α) (v : β) :
    ((m.map (fun p => if p.1 = k then (k, v) else p)).lookup k) =
      if (m.lookup k).isSome then some v else none := by
  induction m with
  | nil => simp
  | cons x xs ih =>
    by_cases hx : x.1 = k
    · obtain ⟨a, b⟩ := x
      simp only at hx
      subst hx
      simp [List.lookup_cons]
    · obtain ⟨a, b⟩ := x
      simp only at hx
      have hbeq : (k == a) = false := by
        simp only [beq_eq_false_iff_ne, ne_eq]
        exact fun he => hx he.symm
      simp only [List.map_cons, if_neg hx, List.lookup_cons, hbeq, cond_false, ih]

/-- Helper: `mapSet` (JS `Map.set`) makes the written key look up to the
written value. -/
theorem lookup_mapSet {α β : Type} [BEq α] [LawfulBEq α] [DecidableEq α]
    (m : List (α × β)) (k : α) (v : β) :
    (DOMLocalityHash.mapSet m k v).lookup k = some v := by
  unfold DOMLocalityHash.mapSet
  split
  · rename_i hs
    rw [lookup_map_replace, if_pos hs]
  · rename_i hs
    rw [List.lookup_append]
    have : m.lookup k = none := by
      cases h : m.lookup k with
      | none => rfl
      | some b => rw [h] at hs; simp at hs
    rw [this]
    simp [List.lookup_cons]

/-- Helper: what `_reportPattern` leaves stored under the new
inference's dedup key. -/
theorem reportPattern_lookup (m : List (String × PassiveDetector.Inferred))
    (inf : PassiveDetector.Inferred) :
    (PassiveDetector.reportPattern m inf).lookup (PassiveDetector.dedupKey inf) =
      some (match m.lookup (PassiveDetector.dedupKey inf) with
            | some existing =>
                if existing.confidence ≥ inf.confidence then existing else inf
            | none => inf) := by
  unfold PassiveDetector.reportPattern
  cases h : m.lookup (PassiveDetector.dedupKey inf) with
  | none => simp only [h, lookup_mapSet]
  | some existing =>
    by_cases hc : existing.confidence ≥ inf.confidence
    · simp only [h, if_pos hc]
    · simp only [h, if_neg hc, lookup_mapSet]

/-- C2 (amended): a later inference for an occupied dedup key replaces
the stored one iff its confidence is strictly greater; with equal or
lower confidence the earlier inference is kept. -/
theorem reportPattern_replaces_iff_strictly_greater
    (m : List (String × PassiveDetector.Inferred))
    (inf : PassiveDetector.Inferred) :
    (PassiveDetector.reportPattern m inf).lookup (PassiveDetector.dedupKey inf) =
      some (match m.lookup (PassiveDetector.dedupKey inf) with
            | some existing =>
                if existing.confidence ≥ inf.confidence then existing else inf
            | none => inf) :=
  reportPattern_lookup m inf

/-- The first of two equal-confidence inferences for the same dedup
key. -/
def dupInferredA : PassiveDetector.Inferred :=
  { pattern := "modal", confidence := 0.75,
    evidence := "fixed element appeared after click",
    container := some ⟨"DIV", ""⟩ }

/-- The second inference: same key and confidence, different evidence
text. -/
def dupInferredB : PassiveDetector.Inferred :=
  { pattern := "modal", confidence := 0.75,
    evidence := "fixed element appeared after click, again",
    container := some ⟨"DIV", ""⟩ }

/-- Counterexample to C2 as stated: a new inference whose confidence
equals the stored one's (hence is "not lower") does NOT replace it —
`_reportPattern` returns early when `existing.confidence >=
inferred.confidence`, so the earlier inference is kept. -/
theorem reportPattern_equal_confidence_keeps_earlier :
    PassiveDetector.dedupKey dupInferredB = PassiveDetector.dedupKey dupInferredA ∧
    dupInferredB.confidence = dupInferredA.confidence ∧
    dupInferredB ≠ dupInferredA ∧
    (PassiveDetector.reportPattern
        (PassiveDetector.reportPattern [] dupInferredA) dupInferredB).lookup
      (PassiveDetector.dedupKey dupInferredB) = some dupInferredA := by
  refine ⟨rfl, rfl, ?_, ?_⟩
  · intro h
    exact absurd (congrArg PassiveDetector.Inferred.evidence h) (by decide)
  · have h1 : (PassiveDetector.reportPattern [] dupInferredA).lookup
        (PassiveDetector.dedupKey dupInferredA) = some dupInferredA := by
      rw [reportPattern_lookup]
      rfl
    have hkey : PassiveDetector.dedupKey dupInferredB =
        PassiveDetector.dedupKey dupInferredA := rfl
    rw [reportPattern_lookup, hkey, h1]
    show some (if dupInferredA.confidence ≥ dupInferredB.confidence
        then dupInferredA else dupInferredB) = some dupInferredA
    have hge : dupInferredA.confidence ≥ dupInferredB.confidence := le_refl _
    rw [if_pos hge]

/-- Helper: the correlation loop only ever reports an action whose age
at the tick is at most the window. -/
theorem correlateLoop_reported_young (w : Int) (minConf : ℚ) (now : Int)
    (inferPattern : PassiveDetector.Action → List PassiveDetector.Mutation →
      Option PassiveDetector.Inferred)
    (muts : List PassiveDetector.Mutation) :
    ∀ (acts : List PassiveDetector.Action)
      (m : List (String × PassiveDetector.Inferred))
      (p : PassiveDetector.Action × PassiveDetector.Inferred),
      p ∈ (PassiveDetector.correlateLoop w minConf now inferPattern muts acts m).2.2 →
      now - p.1.timestamp ≤ w := by
  intro acts
  induction acts with
  | nil =>
    intro m p hp
    simp [PassiveDetector.correlateLoop] at hp
  | cons a rest ih =>
    intro m p hp
    rw [PassiveDetector.correlateLoop] at hp
    split at hp
    · exact ih m p hp
    · rename_i hyoung
      push_neg at hyoung
      dsimp only at hp
      split at hp
      · exact ih m p hp
      · split at hp
        · rename_i inf heq
          split at hp
          · rcases List.mem_cons.mp hp with hpe | hpr
            · subst hpe
              exact hyoung.1
            · exact ih _ p hpr
          · exact ih m p hp
        · exact ih m p hp

/-- C7: at a correlation tick, an action whose age (tick time minus
action timestamp) exceeds the correlation window is never reported as a
correlated inference during that tick, whatever mutations are queued
and whatever the inference rule set concludes: every reported pair's
action has age at most the window. -/
theorem correlate_never_reports_stale (st : PassiveDetector.State) (now : Int)
    (inferPattern : PassiveDetector.Action → List PassiveDetector.Mutation →
      Option PassiveDetector.Inferred)
    (p : PassiveDetector.Action × PassiveDetector.Inferred)
    (hp : p ∈ (PassiveDetector.correlate st now inferPattern).2) :
    now - p.1.timestamp ≤ st.correlationWindow := by
  rw [PassiveDetector.correlate] at hp
  exact correlateLoop_reported_young st.correlationWindow st.minConfidence now
    inferPattern _ _ st.inferred p hp

/-- The action of the concrete C7 witness tick: timestamp 100. -/
def wAction : PassiveDetector.Action := ⟨1, 100, false⟩

/-- The inference the witness rule set yields (the source's chat rule
shape). -/
def wInferred : PassiveDetector.Inferred :=
  { pattern := "chat", confidence := 0.85,
    evidence := "enter + children added (message sent)",
    container := some ⟨"DIV", ""⟩ }

/-- The passive-detector state of the C7 witness: defaults, one queued
action, one queued mutation. -/
def wPassiveState : PassiveDetector.State :=
  { correlationWindow := 1000, minConfidence := 0.6,
    actionQueue := [wAction], mutationQueue := [⟨1, 200⟩], inferred := [] }

/-- Witness for C7: a concrete tick at time 500 reports the queued
action (age 400 ≤ window 1000), and the theorem instantiates on it. -/
theorem correlate_never_reports_stale_witness :
    (500 : Int) - wAction.timestamp ≤ wPassiveState.correlationWindow :=
  correlate_never_reports_stale wPassiveState 500
    (fun _ _ => some wInferred) (wAction, wInferred)
    (by norm_num [PassiveDetector.correlate, PassiveDetector.correlateLoop,
      wPassiveState, wAction, wInferred, List.filter])

/-- Whether `SPECS` holds a spec for the pattern with an action of the
given name (the non-early-exit path of `verify`). -/
def knownAction (patternName actionName : String) : Bool :=
  ((PatternVerifier.SPECS.lookup patternName).bind
    (fun spec => spec.actions.lookup actionName)).isSome

/-- C8: for a known pattern and action, when the action function throws
(or its awaitable rejects), `verify` returns `passed: false` with an
`execution` failure entry, and the verifier's guarantee level after the
call equals its level before the call. -/
theorem verify_throwing_action (v : PatternVerifier.Verifier)
    (actionName : String) (preEnv : String → Bool) (msg : String)
    (postEnv : String → Nat → Bool) (now : Int)
    (h : knownAction v.patternName actionName = true) :
    (PatternVerifier.verify v actionName preEnv (.throws msg) postEnv now).1.passed
        = false ∧
    (∃ r ∈ (PatternVerifier.verify v actionName preEnv (.throws msg) postEnv
        now).1.results,
      r.check = "execution" ∧ r.passed = false ∧ r.phase = some "exec") ∧
    (PatternVerifier.verify v actionName preEnv (.throws msg) postEnv
        now).2.currentGuarantee = v.currentGuarantee := by
  unfold knownAction at h
  cases hspec : PatternVerifier.SPECS.lookup v.patternName with
  | none => rw [hspec] at h; simp at h
  | some spec =>
    cases hact : spec.actions.lookup actionName with
    | none => rw [hspec] at h; simp [hact] at h
    | some act =>
      simp only [PatternVerifier.verify, hspec, hact]
      refine ⟨trivial, ⟨⟨"execution", false, "Action threw: " ++ msg, some "exec"⟩,
        ?_, rfl, rfl, rfl⟩, trivial⟩
      exact List.mem_append_right _ (List.mem_singleton.mpr rfl)

/-- Witness for C8: a fresh chat verifier whose `send` action throws;
the hypothesis (the pattern and action are known) holds by computation,
and the theorem instantiates on it. -/
theorem verify_throwing_action_witness :
    (PatternVerifier.verify (PatternVerifier.init "chat") "send"
        (fun _ => true) (.throws "boom") (fun _ _ => true) 0).1.passed = false ∧
    (∃ r ∈ (PatternVerifier.verify (PatternVerifier.init "chat") "send"
        (fun _ => true) (.throws "boom") (fun _ _ => true) 0).1.results,
      r.check = "execution" ∧ r.passed = false ∧ r.phase = some "exec") ∧
    (PatternVerifier.verify (PatternVerifier.init "chat") "send"
        (fun _ => true) (.throws "boom") (fun _ _ => true)
        0).2.currentGuarantee = (PatternVerifier.init "chat").currentGuarantee :=
  verify_throwing_action (PatternVerifier.init "chat") "send"
    (fun _ => true) "boom" (fun _ _ => true) 0 (by decide)

/-- Helper: every guarantee rank is at most `VERIFIED`'s rank 3. -/
theorem guaranteeRank_le_three (s : String) :
    PatternVerifier.guaranteeRank s ≤ 3 := by
  unfold PatternVerifier.guaranteeRank
  repeat' split
  all_goals omega

/-- Helper: one `verify` call either leaves the guarantee unchanged or
sets it to `VERIFIED`, and in the latter case the call passed. -/
theorem verify_guarantee_step (v : PatternVerifier.Verifier)
    (actionName : String) (preEnv : String → Bool)
    (outcome : PatternVerifier.ActionOutcome)
    (postEnv : String → Nat → Bool) (now : Int) :
    (PatternVerifier.verify v actionName preEnv outcome postEnv
        now).2.currentGuarantee = v.currentGuarantee ∨
    ((PatternVerifier.verify v actionName preEnv outcome postEnv
        now).2.currentGuarantee = "VERIFIED" ∧
     (PatternVerifier.verify v actionName preEnv outcome postEnv
        now).1.passed = true) := by
  cases hspec : PatternVerifier.SPECS.lookup v.patternName with
  | none =>
    refine Or.inl ?_
    simp only [PatternVerifier.verify, hspec]
  | some spec =>
    cases hact : spec.actions.lookup actionName with
    | none =>
      refine Or.inl ?_
      simp only [PatternVerifier.verify, hspec, hact]
    | some act =>
      cases outcome with
      | throws msg =>
        refine Or.inl ?_
        simp only [PatternVerifier.verify, hspec, hact]
      | ok =>
        simp only [PatternVerifier.verify, hspec, hact]
        split
        · rename_i hall
          exact Or.inr ⟨rfl, hall⟩
        · exact Or.inl rfl

/-- C9: a verifier's guarantee level starts at `STRUCTURAL`; across any
sequence of `verify` calls it is never lowered (its rank in the ordered
enum never decreases), and it changes only by being set to `VERIFIED`
by a call that passed every pre- and post-condition. -/
theorem verifier_guarantee_monotone :
    (∀ patternName, (PatternVerifier.init patternName).currentGuarantee =
      "STRUCTURAL") ∧
    (∀ (v : PatternVerifier.Verifier) (calls : List PatternVerifier.VerifyCall),
      PatternVerifier.guaranteeRank v.currentGuarantee ≤
        PatternVerifier.guaranteeRank
          (PatternVerifier.runVerifies v calls).1.currentGuarantee ∧
      ((PatternVerifier.runVerifies v calls).1.currentGuarantee =
          v.currentGuarantee ∨
       ((PatternVerifier.runVerifies v calls).1.currentGuarantee = "VERIFIED" ∧
        ∃ ret ∈ (PatternVerifier.runVerifies v calls).2, ret.passed = true))) := by
  refine ⟨fun _ => rfl, ?_⟩
  intro v calls
  induction calls generalizing v with
  | nil => exact ⟨le_refl _, Or.inl rfl⟩
  | cons c rest ih =>
    rw [PatternVerifier.runVerifies]
    dsimp only
    obtain ⟨ihrank, ihor⟩ :=
      ih (PatternVerifier.verify v c.actionName c.preEnv c.outcome c.postEnv c.now).2
    have hstep := verify_guarantee_step v c.actionName c.preEnv c.outcome
      c.postEnv c.now
    constructor
    · refine le_trans ?_ ihrank
      rcases hstep with heq | ⟨hver, _⟩
      · rw [heq]
      · rw [hver]
        exact guaranteeRank_le_three _
    · rcases hstep with heq | ⟨hver, hpass⟩
      · rcases ihor with h2 | ⟨h2, ret, hret, hr⟩
        · exact Or.inl (h2.trans heq)
        · exact Or.inr ⟨h2, ret, List.mem_cons_of_mem _ hret, hr⟩
      · rcases ihor with h2 | ⟨h2, ret, hret, hr⟩
        · exact Or.inr ⟨h2.trans hver, _, List.mem_cons_self _ _, hpass⟩
        · exact Or.inr ⟨h2, ret, List.mem_cons_of_mem _ hret, hr⟩

/-- Helper: updating the entries keyed `k` leaves other keys' lookups
unchanged. -/
theorem lookup_map_update_ne {α β : Type} [BEq α] [LawfulBEq α] [DecidableEq α]
    (m : List (α × β)) (k k' : α) (v : β) (h : k' ≠ k) :
    ((m.map (fun p => if p.1 = k then (k, v) else p)).lookup k') =
      m.lookup k' := by
  induction m with
  | nil => rfl
  | cons x xs ih =>
    obtain ⟨a, b⟩ := x
    by_cases ha : a = k
    · subst ha
      have hbeq : (k' == a) = false := by simpa using h
      simp [List.lookup_cons, hbeq, ih]
    · simp only [List.map_cons, if_neg ha, List.lookup_cons]
      cases hbeq : k' == a with
      | true => simp
      | false => simpa using ih

/-- Helper: `mapSet` leaves other keys' lookups unchanged. -/
theorem lookup_mapSet_ne {α β : Type} [BEq α] [LawfulBEq α] [DecidableEq α]
    (m : List (α × β)) (k k' : α) (v : β) (h : k' ≠ k) :
    (DOMLocalityHash.mapSet m k v).lookup k' = m.lookup k' := by
  unfold DOMLocalityHash.mapSet
  split
  · exact lookup_map_update_ne m k k' v h
  · rw [List.lookup_append]
    have hsingle : ([(k, v)] : List (α × β)).lookup k' = none := by
      have hbeq : (k' == k) = false := by simpa using h
      simp [List.lookup_cons, hbeq]
    rw [hsingle, Option.or_none]

/-- Helper: after `bucketAdd`, the added fingerprint is in its
bucket. -/
theorem mem_bucketAdd_self (bk : List ((Nat × Nat) × List String))
    (b bh : Nat) (fp : String) :
    fp ∈ DOMLocalityHash.bucketLookup (DOMLocalityHash.bucketAdd bk b bh fp) b bh := by
  unfold DOMLocalityHash.bucketAdd DOMLocalityHash.bucketLookup
  cases h : bk.lookup (b, bh) with
  | some s =>
    dsimp only
    rw [lookup_mapSet]
    by_cases hm : fp ∈ s
    · simp [hm]
    · simp [hm]
  | none =>
    dsimp only
    rw [List.lookup_append, h]
    simp [List.lookup_cons]

/-- Helper: `bucketAdd` never removes a fingerprint from any bucket. -/
theorem mem_bucketAdd_mono (bk : List ((Nat × Nat) × List String))
    (b' bh' : Nat) (fp' : String) (b bh : Nat) (fp : String)
    (h : fp ∈ DOMLocalityHash.bucketLookup bk b bh) :
    fp ∈ DOMLocalityHash.bucketLookup
      (DOMLocalityHash.bucketAdd bk b' bh' fp') b bh := by
  unfold DOMLocalityHash.bucketLookup at h ⊢
  unfold DOMLocalityHash.bucketAdd
  cases hl : bk.lookup (b', bh') with
  | some s =>
    dsimp only
    by_cases hkey : ((b, bh) : Nat × Nat) = (b', bh')
    · rw [hkey, lookup_mapSet]
      rw [hkey, hl] at h
      simp only [Option.getD_some] at h
      by_cases hm : fp' ∈ s
      · simpa [hm] using h
      · simp only [if_neg hm, Option.getD_some]
        exact List.mem_append_left _ h
    · rw [lookup_mapSet_ne _ _ _ _ hkey]
      exact h
  | none =>
    dsimp only
    rw [List.lookup_append]
    cases hb : bk.lookup (b, bh) with
    | some s2 =>
      rw [hb] at h
      simp only [Option.getD_some] at h
      simpa [Option.or] using h
    | none =>
      rw [hb] at h
      simp at h

/-- Helper: the band-insertion fold of `addToIndex` never removes a
fingerprint from any bucket. -/
theorem foldl_bucketAdd_mono (mh : List Nat) (fp' : String) :
    ∀ (bs : List Nat) (acc : List ((Nat × Nat) × List String))
      (b bh : Nat) (fp : String),
      fp ∈ DOMLocalityHash.bucketLookup acc b bh →
      fp ∈ DOMLocalityHash.bucketLookup
        (bs.foldl (fun bk bi =>
          DOMLocalityHash.bucketAdd bk bi (DOMLocalityHash.bandHash mh bi) fp')
          acc) b bh := by
  intro bs
  induction bs with
  | nil => intro acc b bh fp h; exact h
  | cons b0 rest ih =>
    intro acc b bh fp h
    rw [List.foldl_cons]
    exact ih _ b bh fp (mem_bucketAdd_mono acc b0 _ fp' b bh fp h)

/-- Helper: after the band-insertion fold of `addToIndex`, the added
fingerprint sits in every band bucket it was hashed to. -/
theorem mem_foldl_bucketAdd (mh : List Nat) (fp : String) :
    ∀ (bs : List Nat) (acc : List ((Nat × Nat) × List String)) (b : Nat),
      b ∈ bs →
      fp ∈ DOMLocalityHash.bucketLookup
        (bs.foldl (fun bk bi =>
          DOMLocalityHash.bucketAdd bk bi (DOMLocalityHash.bandHash mh bi) fp)
          acc) b (DOMLocalityHash.bandHash mh b) := by
  intro bs
  induction bs with
  | nil => intro acc b h; cases h
  | cons b0 rest ih =>
    intro acc b hb
    rw [List.foldl_cons]
    rcases List.mem_cons.mp hb with rfl | hb'
    · exact foldl_bucketAdd_mono mh fp rest _ b _ fp
        (mem_bucketAdd_self acc b _ fp)
    · exact ih _ b hb'

/-- Helper: a fingerprint found in any band bucket matching the query
belongs to the gathered candidate set. -/
theorem mem_candidateFingerprints (st : DOMLocalityHash.LSHIndex)
    (sig : DOMLocalityHash.Signature) (fp : String)
    (h : ∃ b ∈ List.range DOMLocalityHash.numBands,
      fp ∈ DOMLocalityHash.bucketLookup st.buckets b
        (DOMLocalityHash.bandHash sig.minhash b)) :
    fp ∈ DOMLocalityHash.candidateFingerprints st sig := by
  unfold DOMLocalityHash.candidateFingerprints
  have general : ∀ (bs : List Nat) (acc : List String),
      (fp ∈ acc ∨ ∃ b ∈ bs,
        fp ∈ DOMLocalityHash.bucketLookup st.buckets b
          (DOMLocalityHash.bandHash sig.minhash b)) →
      fp ∈ bs.foldl (fun acc b =>
        acc ++ (DOMLocalityHash.bucketLookup st.buckets b
          (DOMLocalityHash.bandHash sig.minhash b)).filter
          (fun x => x ∉ acc)) acc := by
    intro bs
    induction bs with
    | nil =>
      intro acc h0
      rcases h0 with h0 | ⟨b, hb, _⟩
      · exact h0
      · cases hb
    | cons b0 rest ih =>
      intro acc h0
      rw [List.foldl_cons]
      apply ih
      rcases h0 with h0 | ⟨b, hb, hmem⟩
      · exact Or.inl (List.mem_append_left _ h0)
      · rcases List.mem_cons.mp hb with rfl | hb'
        · refine Or.inl ?_
          by_cases hacc : fp ∈ acc
          · exact List.mem_append_left _ hacc
          · refine List.mem_append_right _ ?_
            rw [List.mem_filter]
            exact ⟨hmem, by simpa using hacc⟩
        · exact Or.inr ⟨b, hb', hmem⟩
  exact general _ [] (Or.inr h)

/-- Helper: the slot-agreement count of a vector with itself is its
length. -/
theorem zip_self_filter_length (l : List Nat) :
    ((l.zip l).filter (fun p => p.1 = p.2)).length = l.length := by
  induction l with
  | nil => rfl
  | cons a rest ih => simpa using ih

/-- Helper: two signatures with the same non-empty MinHash vector have
similarity exactly 1. -/
theorem similarity_eq_one (s1 s2 : DOMLocalityHash.Signature)
    (heq : s1.minhash = s2.minhash) (hne : s1.minhash ≠ []) :
    DOMLocalityHash.similarity s1 s2 = 1 := by
  unfold DOMLocalityHash.similarity
  rw [← heq, min_self, zip_self_filter_length]
  have : (s1.minhash.length : ℚ) ≠ 0 := by
    simpa using List.length_pos.mpr hne |> Nat.pos_iff_ne_zero.mp
  exact div_self this

/-- C6: immediately after `addToIndex(K, sig)`, `querySimilar(sig)`
returns an entry whose key is `K` and whose similarity is exactly 1
(the signature's MinHash vector is non-empty: `signature` always
produces `numHashes` slots). -/
theorem addToIndex_querySimilar_self (st : DOMLocalityHash.LSHIndex)
    (key : String) (sig : DOMLocalityHash.Signature)
    (hne : sig.minhash ≠ []) :
    ∃ r ∈ DOMLocalityHash.querySimilar
        (DOMLocalityHash.addToIndex st key sig) sig,
      r.key = key ∧ r.similarity = 1 := by
  have hzero : (0 : Nat) ∈ List.range DOMLocalityHash.numBands :=
    List.mem_range.mpr (by norm_num [DOMLocalityHash.numBands])
  have hfp : sig.fingerprint ∈ DOMLocalityHash.candidateFingerprints
      (DOMLocalityHash.addToIndex st key sig) sig := by
    apply mem_candidateFingerprints
    refine ⟨0, hzero, ?_⟩
    simp only [DOMLocalityHash.addToIndex]
    exact mem_foldl_bucketAdd sig.minhash sig.fingerprint
      (List.range DOMLocalityHash.numBands) st.buckets 0 hzero
  have hidx : (DOMLocalityHash.addToIndex st key sig).index.lookup
      sig.fingerprint = some ⟨sig, key⟩ := by
    simp only [DOMLocalityHash.addToIndex]
    exact lookup_mapSet _ _ _
  refine ⟨⟨key, sig.fingerprint, DOMLocalityHash.similarity sig sig⟩, ?_,
    rfl, similarity_eq_one sig sig rfl hne⟩
  unfold DOMLocalityHash.querySimilar
  rw [List.mem_insertionSort, List.mem_filterMap]
  refine ⟨sig.fingerprint, hfp, ?_⟩
  dsimp only
  rw [hidx]
  rfl

/-- Witness for C6: adding a concrete signature to a fresh index and
querying it, the returned list contains its key with similarity 1. -/
theorem addToIndex_querySimilar_self_witness :
    (List.replicate 64 (0 : Nat) ≠ []) ∧
    ∃ r ∈ DOMLocalityHash.querySimilar
        (DOMLocalityHash.addToIndex DOMLocalityHash.emptyIndex "K"
          ⟨[], List.replicate 64 0, "fp"⟩)
        ⟨[], List.replicate 64 0, "fp"⟩,
      r.key = "K" ∧ r.similarity = 1 :=
  ⟨by decide, addToIndex_querySimilar_self DOMLocalityHash.emptyIndex "K"
    ⟨[], List.replicate 64 0, "fp"⟩ (by decide)⟩

/-- Helper: the MinHash of an empty shingle set is all fill values. -/
theorem minhash_nil :
    DOMLocalityHash.minhash [] =
      List.replicate DOMLocalityHash.numHashes 0xFFFFFFFF := by
  decide

/-- C10: two elements whose extracted feature sequences are each
shorter than the shingle size (3) produce empty shingle sets, identical
all-`0xFFFFFFFF` MinHash vectors and identical fingerprints, and their
similarity is 1, however different the underlying subtrees. -/
theorem short_features_collide (fA fB : List String)
    (hA : fA.length < DOMLocalityHash.shingleSize)
    (hB : fB.length < DOMLocalityHash.shingleSize) :
    DOMLocalityHash.shinglesOf fA = [] ∧
    (DOMLocalityHash.signature fA).minhash =
      List.replicate DOMLocalityHash.numHashes 0xFFFFFFFF ∧
    (DOMLocalityHash.signature fA).minhash =
      (DOMLocalityHash.signature fB).minhash ∧
    (DOMLocalityHash.signature fA).fingerprint =
      (DOMLocalityHash.signature fB).fingerprint ∧
    DOMLocalityHash.similarity (DOMLocalityHash.signature fA)
      (DOMLocalityHash.signature fB) = 1 := by
  have hsA : DOMLocalityHash.shinglesOf fA = [] := by
    unfold DOMLocalityHash.shinglesOf
    rw [if_pos hA]
  have hsB : DOMLocalityHash.shinglesOf fB = [] := by
    unfold DOMLocalityHash.shinglesOf
    rw [if_pos hB]
  have hmA : (DOMLocalityHash.signature fA).minhash =
      List.replicate DOMLocalityHash.numHashes 0xFFFFFFFF := by
    show DOMLocalityHash.minhash (DOMLocalityHash.shinglesOf fA) = _
    rw [hsA, minhash_nil]
  have hmB : (DOMLocalityHash.signature fB).minhash =
      List.replicate DOMLocalityHash.numHashes 0xFFFFFFFF := by
    show DOMLocalityHash.minhash (DOMLocalityHash.shinglesOf fB) = _
    rw [hsB, minhash_nil]
  have hmm : (DOMLocalityHash.signature fA).minhash =
      (DOMLocalityHash.signature fB).minhash := by rw [hmA, hmB]
  refine ⟨hsA, hmA, hmm, ?_, ?_⟩
  · show DOMLocalityHash.fingerprintOf (DOMLocalityHash.minhash
      (DOMLocalityHash.shinglesOf fA)) = DOMLocalityHash.fingerprintOf
      (DOMLocalityHash.minhash (DOMLocalityHash.shinglesOf fB))
    rw [hsA, hsB]
  · exact similarity_eq_one _ _ hmm (by rw [hmA]; decide)

/-- Witness for C10: two concrete feature lists of lengths 1 and 2
yield identical signatures with similarity 1. -/
theorem short_features_collide_witness :
    (["tag:DIV"] : List String).length < DOMLocalityHash.shingleSize ∧
    (DOMLocalityHash.signature ["tag:DIV"]).fingerprint =
      (DOMLocalityHash.signature ["tag:SPAN", "depth:0"]).fingerprint ∧
    DOMLocalityHash.similarity (DOMLocalityHash.signature ["tag:DIV"])
      (DOMLocalityHash.signature ["tag:SPAN", "depth:0"]) = 1 :=
  ⟨by decide,
   (short_features_collide ["tag:DIV"] ["tag:SPAN", "depth:0"]
     (by decide) (by decide)).2.2.2.1,
   (short_features_collide ["tag:DIV"] ["tag:SPAN", "depth:0"]
     (by decide) (by decide)).2.2.2.2⟩

/-- Witness for C1: the concrete all-structural/all-behavioral
candidate of the spec's worked example evaluates to confidence 0.55. -/
theorem detect_confidence_formula_and_threshold_witness :
    Controller.detectConfidence ⟨"", 1, 0, [], 0, 1⟩ = 0.55 :=
  detect_confidence_formula_and_threshold.2.2.2.1

/-- Witness for the amended C2: reporting into an empty dedup map
stores the new inference under its key. -/
theorem reportPattern_replaces_iff_strictly_greater_witness :
    (PassiveDetector.reportPattern [] dupInferredA).lookup
      (PassiveDetector.dedupKey dupInferredA) = some dupInferredA := by
  rw [reportPattern_replaces_iff_strictly_greater]
  rfl

/-- Witness for C9: a fresh verifier's guarantee level is
`STRUCTURAL`. -/
theorem verifier_guarantee_monotone_witness :
    (PatternVerifier.init "chat").currentGuarantee = "STRUCTURAL" :=
  verifier_guarantee_monotone.1 "chat"

end Claims

end UCSpec
